import Mathlib

/-!
Verification development for the uriuniq package (uriuniq.go): a generator of
random URI-safe strings.  The Go source is shallowly embedded below: Go byte
strings become lists of natural numbers (byte values), the Go int type becomes
Int, the entropy source crypto/rand becomes an explicit stream of read results
passed to each function, and a function returning (string, error) becomes a
pair of a byte list and an optional error (the Go code always pairs a non-nil
error with the empty string, which the embedding mirrors literally).
-/

namespace Uriuniq

/-- Result of one call to the entropy source: either the bytes that were read
(readBytes in the Go code is the length of the list) or a read failure. -/
inductive ReadResult where
  | ok : List Nat → ReadResult
  | fail : ReadResult
deriving DecidableEq

/-- Errors the package can return: the four non-nil error values of
Generate and randString in uriuniq.go. -/
inductive GenErr where
  | noValidChars
  | charsetSize
  | tooManyBadReads
  | readFail
deriving DecidableEq

/-- A (string, error) pair as returned by the Go functions: the byte string and
an optional error. -/
abbrev GenResult := List Nat × Option GenErr

/-- Byte values of the Go constant Numeric = "0123456789". -/
def Numeric : List Nat := [48, 49, 50, 51, 52, 53, 54, 55, 56, 57]

/-- Byte values of the Go constant Lowercase = "abcdefghijklmnopqrstuvwxyz". -/
def Lowercase : List Nat :=
  [97, 98, 99, 100, 101, 102, 103, 104, 105, 106, 107, 108, 109,
   110, 111, 112, 113, 114, 115, 116, 117, 118, 119, 120, 121, 122]

/-- Byte values of the Go constant Uppercase = "ABCDEFGHIJKLMNOPQRSTUVWXYZ". -/
def Uppercase : List Nat :=
  [65, 66, 67, 68, 69, 70, 71, 72, 73, 74, 75, 76, 77,
   78, 79, 80, 81, 82, 83, 84, 85, 86, 87, 88, 89, 90]

/-- Byte values of the Go constant Alphanumeric =
"abcdefghijklmnopqrstuvwxyzABCDEFGHIJKLMNOPQRSTUVWXYZ0123456789",
written as the concatenation of its three visible segments. -/
def Alphanumeric : List Nat := Lowercase ++ Uppercase ++ Numeric

/-- The Options struct of uriuniq.go.  CustomCharset is the byte sequence of
the Go Charset string. -/
structure Options where
  Length : Int
  ExcludeNumeric : Bool
  ExcludeLowercase : Bool
  ExcludeUppercase : Bool
  CustomCharset : List Nat
  MaxBadReads : Int
deriving DecidableEq

/-- Go constant DefaultLength = 16. -/
def DefaultLength : Int := 16

/-- Go constant DefaultMaxBadReads = 150. -/
def DefaultMaxBadReads : Int := 150

/-- Go constant MaxBuffLength = 2048: the size of the buffer handed to each
entropy read. -/
def MaxBuffLength : Nat := 2048

/-- NewOpts from uriuniq.go: default options (Length 16, MaxBadReads 150, all
exclusion flags false, no custom charset). -/
def NewOpts : Options := ⟨DefaultLength, false, false, false, [], DefaultMaxBadReads⟩

/-- Byte values of the Go safeChars string used by isURISafe: the uppercase
and lowercase letters, the digits, and the nine URI-safe punctuation marks
with byte values 45, 95, 46, 126, 33, 42, 39, 40 and 41. -/
def safeChars : List Nat :=
  Uppercase ++ Lowercase ++ Numeric ++ [45, 95, 46, 126, 33, 42, 39, 40, 41]

/-- isURISafe from uriuniq.go: true when every character of s belongs to
safeChars (the Go code tests membership via a set built from safeChars). -/
def isURISafe (s : List Nat) : Bool := s.all (fun c => safeChars.contains c)

/-- getCharset from uriuniq.go.  Returns the resolved charset together with a
flag recording whether the non-fatal warning Printf for a non-URI-safe custom
charset fired.  When CustomCharset is non-empty it is returned verbatim; else
the subsets whose exclusion flag is false are appended in the fixed order
numeric, lowercase, uppercase, and when all three flags are set the (empty)
accumulated charset additionally receives Alphanumeric. -/
def getCharset (opts : Options) : List Nat × Bool :=
  if opts.CustomCharset ≠ [] then
    (opts.CustomCharset, !isURISafe opts.CustomCharset)
  else
    let c1 := if opts.ExcludeNumeric then [] else Numeric
    let c2 := if opts.ExcludeLowercase then [] else Lowercase
    let c3 := if opts.ExcludeUppercase then [] else Uppercase
    let base := c1 ++ c2 ++ c3
    if opts.ExcludeNumeric && opts.ExcludeLowercase && opts.ExcludeUppercase then
      (base ++ Alphanumeric, false)
    else
      (base, false)

/-- The acceptance bound maxByte := byte(255 - (256 % charsetLen)) computed by
randString (for n in [2, 256] the value 255 - 256 % n lies in [0, 255], so the
byte conversion is the identity and Nat subtraction is exact). -/
def maxByteOf (n : Nat) : Nat := 255 - 256 % n

/-- The inner loop of randString over one buffer: for each byte while the
output is still short of length, accept it when it is at most maxByte and
append charset[byte % n], otherwise discard it.  Bytes after the output is
full are not consumed, which leaves the output unchanged, exactly as the Go
loop condition i < readBytes && len(output) < length does. -/
def processBuffer (maxByte n : Nat) (length : Int) (charset : List Nat) :
    List Nat → List Nat → List Nat
  | output, [] => output
  | output, b :: rest =>
    if (output.length : Int) < length then
      if b ≤ maxByte then
        processBuffer maxByte n length charset (output ++ [charset.getD (b % n) 0]) rest
      else
        processBuffer maxByte n length charset output rest
    else
      output

/-- The outer for-loop of randString.  The Go loop keeps an increasing counter
badReads and exits with the "too many bad reads" error when badReads, after
being incremented for the read just performed, exceeds maxBadReads; here the
state is carried as remaining = maxBadReads - badReads, the number of future
reads that can still pass that check, so the check badReads+1 > maxBadReads
becomes remaining = 0.  readIdx counts the reads performed so far and indexes
the entropy stream; the second component of the result is the total number of
reads performed. -/
def randStringLoop (length : Int) (maxByte n : Nat) (charset : List Nat)
    (stream : Nat → ReadResult) : Nat → Nat → List Nat → GenResult × Nat
  | remaining, readIdx, output =>
    if (output.length : Int) < length then
      match stream readIdx with
      | ReadResult.fail => (([], some GenErr.readFail), readIdx + 1)
      | ReadResult.ok bytes =>
        match remaining with
        | 0 => (([], some GenErr.tooManyBadReads), readIdx + 1)
        | r + 1 =>
          randStringLoop length maxByte n charset stream r (readIdx + 1)
            (processBuffer maxByte n length charset output bytes)
    else
      ((output, none), readIdx)

/-- randString from uriuniq.go: returns immediately on length 0, rejects a
charset whose size is outside [2, 256], and otherwise runs the sampling loop
with maxByte = 255 - 256 % charsetLen, an initial bad-read budget of
maxBadReads (clamped to 0 when negative, since an Int counter starting at 0
immediately exceeds a negative bound) and an empty output. -/
def randString (length maxBadReads : Int) (charset : List Nat)
    (stream : Nat → ReadResult) : GenResult × Nat :=
  if length = 0 then (([], none), 0)
  else if charset.length < 2 ∨ 256 < charset.length then
    (([], some GenErr.charsetSize), 0)
  else
    randStringLoop length (maxByteOf charset.length) charset.length charset stream
      maxBadReads.toNat 0 []

/-- The length substitution at the top of Generate: the default 16 replaces a
zero or negative requested length. -/
def effectiveLength (opts : Options) : Int :=
  if opts.Length ≤ 0 then DefaultLength else opts.Length

/-- The MaxBadReads substitution at the top of Generate: the default 150
replaces a zero or negative budget. -/
def effectiveMaxBadReads (opts : Options) : Int :=
  if opts.MaxBadReads ≤ 0 then DefaultMaxBadReads else opts.MaxBadReads

/-- Generate from uriuniq.go: substitute defaults for non-positive Length and
MaxBadReads, resolve the charset, fail with "no valid chars" when it is empty,
and otherwise delegate to randString. -/
def Generate (opts : Options) (stream : Nat → ReadResult) : GenResult × Nat :=
  if (getCharset opts).1.length = 0 then (([], some GenErr.noValidChars), 0)
  else randString (effectiveLength opts) (effectiveMaxBadReads opts) (getCharset opts).1 stream

/-- The output accumulated after the first k reads of the stream have been
processed (a read failure leaves the output as it was; the sampling loop never
continues past a failure, so that case is inert under the no-failure
hypotheses used below).  This is the reference notion of progress used to
state when the retry budget fires. -/
def outAfter (maxByte n : Nat) (length : Int) (charset : List Nat)
    (stream : Nat → ReadResult) : Nat → List Nat
  | 0 => []
  | k + 1 =>
    match stream k with
    | ReadResult.fail => outAfter maxByte n length charset stream k
    | ReadResult.ok bytes =>
      processBuffer maxByte n length charset (outAfter maxByte n length charset stream k) bytes


/-- Entropy stream every read of which yields the single byte 255. -/
def streamAllRejected : Nat → ReadResult := fun _ => ReadResult.ok [255]

/-- Entropy stream whose first read yields the byte 255 and every later read
the byte 0. -/
def streamRejThenHit : Nat → ReadResult :=
  fun i => if i = 0 then ReadResult.ok [255] else ReadResult.ok [0]

/-- Entropy stream every read of which yields sixteen zero bytes. -/
def streamZeros : Nat → ReadResult := fun _ => ReadResult.ok (List.replicate 16 0)

/-- Entropy stream every read of which yields the single byte 0. -/
def streamSingleZero : Nat → ReadResult := fun _ => ReadResult.ok [0]

/-- Entropy stream that always fails. -/
def streamFail : Nat → ReadResult := fun _ => ReadResult.fail

theorem processBuffer_stable (maxByte n : Nat) (length : Int) (charset : List Nat)
    (output bytes : List Nat) (h : ¬ ((output.length : Int) < length)) :
    processBuffer maxByte n length charset output bytes = output := by
  cases bytes with
  | nil => rfl
  | cons b rest => simp [processBuffer, h]

theorem processBuffer_le (maxByte n : Nat) (length : Int) (charset : List Nat)
    (bytes : List Nat) : ∀ output : List Nat, (output.length : Int) ≤ length →
    ((processBuffer maxByte n length charset output bytes).length : Int) ≤ length := by
  induction bytes with
  | nil => intro output h; simpa [processBuffer] using h
  | cons b rest ih =>
    intro output h
    by_cases hlt : (output.length : Int) < length
    · by_cases hb : b ≤ maxByte
      · simp only [processBuffer, if_pos hlt, if_pos hb]
        apply ih
        have hlen : ((output ++ [charset.getD (b % n) 0]).length : Int) = output.length + 1 := by
          simp
        omega
      · simp only [processBuffer, if_pos hlt, if_neg hb]
        exact ih output h
    · simp only [processBuffer, if_neg hlt]
      exact h

theorem randStringLoop_error (length : Int) (maxByte n : Nat) (charset : List Nat)
    (stream : Nat → ReadResult) :
    ∀ (remaining readIdx : Nat) (output out : List Nat) (e : GenErr) (reads : Nat),
    randStringLoop length maxByte n charset stream remaining readIdx output
      = ((out, some e), reads) →
    out = [] ∧ (e = GenErr.tooManyBadReads ∨ e = GenErr.readFail) := by
  intro remaining
  induction remaining with
  | zero =>
    intro readIdx output out e reads h
    rw [randStringLoop] at h
    by_cases hlt : (output.length : Int) < length
    · rw [if_pos hlt] at h
      cases hs : stream readIdx <;> rw [hs] at h <;> simp_all
    · rw [if_neg hlt] at h
      simp_all
  | succ r ih =>
    intro readIdx output out e reads h
    rw [randStringLoop] at h
    by_cases hlt : (output.length : Int) < length
    · rw [if_pos hlt] at h
      cases hs : stream readIdx <;> rw [hs] at h
      · exact ih _ _ _ _ _ h
      · simp_all
    · rw [if_neg hlt] at h
      simp_all

theorem randStringLoop_none_length (length : Int) (maxByte n : Nat) (charset : List Nat)
    (stream : Nat → ReadResult) :
    ∀ (remaining readIdx : Nat) (output out : List Nat) (reads : Nat),
    (output.length : Int) ≤ length →
    randStringLoop length maxByte n charset stream remaining readIdx output
      = ((out, none), reads) →
    (out.length : Int) = length := by
  intro remaining
  induction remaining with
  | zero =>
    intro readIdx output out reads hle h
    rw [randStringLoop] at h
    by_cases hlt : (output.length : Int) < length
    · rw [if_pos hlt] at h
      cases hs : stream readIdx <;> rw [hs] at h <;> simp_all
    · rw [if_neg hlt] at h
      simp only [Prod.mk.injEq] at h
      obtain ⟨⟨h1, h2⟩, h3⟩ := h
      subst h1
      omega
  | succ r ih =>
    intro readIdx output out reads hle h
    rw [randStringLoop] at h
    by_cases hlt : (output.length : Int) < length
    · rw [if_pos hlt] at h
      cases hs : stream readIdx <;> rw [hs] at h
      · exact ih _ _ _ _ (processBuffer_le _ _ _ _ _ _ hle) h
      · simp_all
    · rw [if_neg hlt] at h
      simp only [Prod.mk.injEq] at h
      obtain ⟨⟨h1, h2⟩, h3⟩ := h
      subst h1
      omega

theorem randStringLoop_reads_le (length : Int) (maxByte n : Nat) (charset : List Nat)
    (stream : Nat → ReadResult) :
    ∀ (remaining readIdx : Nat) (output : List Nat),
    (randStringLoop length maxByte n charset stream remaining readIdx output).2
      ≤ readIdx + remaining + 1 := by
  intro remaining
  induction remaining with
  | zero =>
    intro readIdx output
    rw [randStringLoop]
    by_cases hlt : (output.length : Int) < length
    · rw [if_pos hlt]
      cases hs : stream readIdx <;> simp
    · rw [if_neg hlt]
      simp
  | succ r ih =>
    intro readIdx output
    rw [randStringLoop]
    by_cases hlt : (output.length : Int) < length
    · rw [if_pos hlt]
      cases hs : stream readIdx with
      | ok bytes =>
        have hr := ih (readIdx + 1) (processBuffer maxByte n length charset output bytes)
        simp only []
        omega
      | fail => simp
    · rw [if_neg hlt]
      simp
      omega


theorem outAfter_stable (maxByte n : Nat) (length : Int) (charset : List Nat)
    (stream : Nat → ReadResult) (k : Nat)
    (h : ¬ ((outAfter maxByte n length charset stream k).length : Int) < length) :
    ∀ m, outAfter maxByte n length charset stream (k + m)
      = outAfter maxByte n length charset stream k := by
  intro m
  induction m with
  | zero => rfl
  | succ j ih =>
    have : k + (j + 1) = (k + j) + 1 := by omega
    rw [this, outAfter]
    cases hs : stream (k + j) with
    | ok bytes =>
      rw [ih]
      exact processBuffer_stable _ _ _ _ _ _ h
    | fail => exact ih

theorem randStringLoop_done (length : Int) (maxByte n : Nat) (charset : List Nat)
    (stream : Nat → ReadResult) (remaining readIdx : Nat) (output : List Nat)
    (h : ¬ ((output.length : Int) < length)) :
    randStringLoop length maxByte n charset stream remaining readIdx output
      = ((output, none), readIdx) := by
  cases remaining <;> rw [randStringLoop, if_neg h]

theorem randStringLoop_readFail (length : Int) (maxByte n : Nat) (charset : List Nat)
    (stream : Nat → ReadResult) (remaining readIdx : Nat) (output : List Nat)
    (hlt : (output.length : Int) < length) (hsk : stream readIdx = ReadResult.fail) :
    randStringLoop length maxByte n charset stream remaining readIdx output
      = (([], some GenErr.readFail), readIdx + 1) := by
  cases remaining <;> rw [randStringLoop, if_pos hlt, hsk]

theorem randStringLoop_exhausted (length : Int) (maxByte n : Nat) (charset : List Nat)
    (stream : Nat → ReadResult) (readIdx : Nat) (output bytes : List Nat)
    (hlt : (output.length : Int) < length) (hsk : stream readIdx = ReadResult.ok bytes) :
    randStringLoop length maxByte n charset stream 0 readIdx output
      = (([], some GenErr.tooManyBadReads), readIdx + 1) := by
  rw [randStringLoop, if_pos hlt, hsk]

theorem randStringLoop_step (length : Int) (maxByte n : Nat) (charset : List Nat)
    (stream : Nat → ReadResult) (r readIdx : Nat) (output bytes : List Nat)
    (hlt : (output.length : Int) < length) (hsk : stream readIdx = ReadResult.ok bytes) :
    randStringLoop length maxByte n charset stream (r + 1) readIdx output
      = randStringLoop length maxByte n charset stream r (readIdx + 1)
          (processBuffer maxByte n length charset output bytes) := by
  rw [randStringLoop, if_pos hlt, hsk]

theorem randStringLoop_tooMany_iff (length : Int) (maxByte n : Nat) (charset : List Nat)
    (stream : Nat → ReadResult) (hs : ∀ i, stream i ≠ ReadResult.fail) :
    ∀ (remaining k : Nat),
    ((randStringLoop length maxByte n charset stream remaining k
        (outAfter maxByte n length charset stream k)).1.2 = some GenErr.tooManyBadReads)
      ↔ ((outAfter maxByte n length charset stream (k + remaining)).length : Int) < length := by
  intro remaining
  induction remaining with
  | zero =>
    intro k
    by_cases hlt : ((outAfter maxByte n length charset stream k).length : Int) < length
    · cases hsk : stream k with
      | ok bytes =>
        rw [randStringLoop_exhausted length maxByte n charset stream k _ bytes hlt hsk]
        simpa using hlt
      | fail => exact absurd hsk (hs k)
    · rw [randStringLoop_done length maxByte n charset stream 0 k _ hlt]
      simpa using hlt
  | succ r ih =>
    intro k
    by_cases hlt : ((outAfter maxByte n length charset stream k).length : Int) < length
    · cases hsk : stream k with
      | ok bytes =>
        rw [randStringLoop_step length maxByte n charset stream r k _ bytes hlt hsk]
        have hout : processBuffer maxByte n length charset
            (outAfter maxByte n length charset stream k) bytes
            = outAfter maxByte n length charset stream (k + 1) := by
          rw [outAfter, hsk]
        rw [hout]
        have heq : k + (r + 1) = (k + 1) + r := by omega
        rw [heq]
        exact ih (k + 1)
      | fail => exact absurd hsk (hs k)
    · rw [randStringLoop_done length maxByte n charset stream (r + 1) k _ hlt]
      have hst := outAfter_stable maxByte n length charset stream k hlt (r + 1)
      rw [hst]
      simpa using hlt


theorem count_residues (n q j : Nat) (h0 : 0 < n) (hj : j < n) :
    ((Finset.range (n * q)).filter (fun v => v % n = j)).card = q := by
  have hcard : ((Finset.range (n * q)).filter (fun v => v % n = j)).card
      = (Finset.range q).card := by
    apply Finset.card_nbij' (fun v => v / n) (fun i => n * i + j)
    · intro v hv
      simp only [Finset.mem_filter, Finset.mem_range] at hv
      simp only [Finset.mem_range]
      exact Nat.div_lt_of_lt_mul (by omega)
    · intro i hi
      simp only [Finset.mem_range] at hi
      simp only [Finset.mem_filter, Finset.mem_range]
      constructor
      · calc n * i + j < n * i + n := by omega
          _ = n * (i + 1) := by ring
          _ ≤ n * q := Nat.mul_le_mul_left n (by omega)
      · rw [Nat.mul_add_mod]
        exact Nat.mod_eq_of_lt hj
    · intro v hv
      simp only [Finset.mem_filter, Finset.mem_range] at hv
      have := Nat.div_add_mod v n
      omega
    · intro i hi
      rw [Nat.mul_add_div h0, Nat.div_eq_of_lt hj]
      omega
  simpa using hcard

theorem count_accepted (n j : Nat) (h2 : 2 ≤ n) (h256 : n ≤ 256) (hj : j < n) :
    ((Finset.range 256).filter (fun v => v ≤ maxByteOf n ∧ v % n = j)).card = 256 / n := by
  have h0 : 0 < n := by omega
  have hdm : n * (256 / n) + 256 % n = 256 := Nat.div_add_mod 256 n
  have hrlt : 256 % n < n := Nat.mod_lt _ h0
  have hiff : ∀ v, (v ≤ maxByteOf n) ↔ v < n * (256 / n) := by
    intro v
    unfold maxByteOf
    omega
  have hss : ((Finset.range 256).filter (fun v => v ≤ maxByteOf n ∧ v % n = j))
      = (Finset.range (n * (256 / n))).filter (fun v => v % n = j) := by
    ext v
    simp only [Finset.mem_filter, Finset.mem_range]
    constructor
    · rintro ⟨hv256, hacc, hmod⟩
      exact ⟨(hiff v).mp hacc, hmod⟩
    · rintro ⟨hvlt, hmod⟩
      exact ⟨by omega, (hiff v).mpr hvlt, hmod⟩
  rw [hss]
  exact count_residues n (256 / n) j h0 hj


theorem effectiveLength_pos (opts : Options) : 0 < effectiveLength opts := by
  unfold effectiveLength DefaultLength
  split <;> omega

theorem randString_error_empty (length maxBadReads : Int) (charset : List Nat)
    (stream : Nat → ReadResult) (e : GenErr)
    (h : (randString length maxBadReads charset stream).1.2 = some e) :
    (randString length maxBadReads charset stream).1.1 = [] := by
  rw [randString] at h ⊢
  by_cases h0 : length = 0
  · rw [if_pos h0] at h
    simp at h
  · rw [if_neg h0] at h ⊢
    by_cases hsz : charset.length < 2 ∨ 256 < charset.length
    · rw [if_pos hsz]
    · rw [if_neg hsz] at h ⊢
      rcases hres : randStringLoop length (maxByteOf charset.length) charset.length charset
          stream maxBadReads.toNat 0 [] with ⟨⟨out, oe⟩, reads⟩
      rw [hres] at h
      simp at h
      subst h
      obtain ⟨hout, -⟩ := randStringLoop_error length (maxByteOf charset.length) charset.length
        charset stream maxBadReads.toNat 0 [] out e reads hres
      simpa using hout

theorem generate_no_config_error (opts : Options) (stream : Nat → ReadResult)
    (h2 : 2 ≤ (getCharset opts).1.length) (h256 : (getCharset opts).1.length ≤ 256) :
    (Generate opts stream).1.2 ≠ some GenErr.noValidChars
    ∧ (Generate opts stream).1.2 ≠ some GenErr.charsetSize := by
  have hpos := effectiveLength_pos opts
  have hne : effectiveLength opts ≠ 0 := by omega
  have hlen0 : ¬ ((getCharset opts).1.length = 0) := by omega
  have hsz : ¬ ((getCharset opts).1.length < 2 ∨ 256 < (getCharset opts).1.length) := by omega
  rw [Generate, if_neg hlen0, randString, if_neg hne, if_neg hsz]
  rcases hres : randStringLoop (effectiveLength opts) (maxByteOf (getCharset opts).1.length)
      (getCharset opts).1.length (getCharset opts).1 stream
      (effectiveMaxBadReads opts).toNat 0 [] with ⟨⟨out, oe⟩, reads⟩
  cases oe with
  | none => simp
  | some e =>
    obtain ⟨-, hor⟩ := randStringLoop_error _ _ _ _ _ _ _ _ _ _ _ hres
    rcases hor with he | he <;> subst he <;> simp

/-- C1 (amended): the sampler fails with "too many bad reads" exactly when the
output is still short of the target length after the first maxBadReads full
buffer reads have been processed: every read counts toward the budget,
including the read during which the output reaches the target length, so a
call whose output is only completed by the (maxBadReads+1)-th read still
fails. -/
theorem c1_bad_read_budget (length maxBadReads : Int) (charset : List Nat)
    (stream : Nat → ReadResult) (hlen : 0 < length)
    (h2 : 2 ≤ charset.length) (h256 : charset.length ≤ 256)
    (hs : ∀ i, stream i ≠ ReadResult.fail) :
    ((randString length maxBadReads charset stream).1.2 = some GenErr.tooManyBadReads)
      ↔ ((outAfter (maxByteOf charset.length) charset.length length charset stream
            maxBadReads.toNat).length : Int) < length := by
  have hne : length ≠ 0 := by omega
  have hsz : ¬ (charset.length < 2 ∨ 256 < charset.length) := by omega
  rw [randString, if_neg hne, if_neg hsz]
  have h0 : ([] : List Nat)
      = outAfter (maxByteOf charset.length) charset.length length charset stream 0 := rfl
  rw [h0]
  have hiff := randStringLoop_tooMany_iff length (maxByteOf charset.length) charset.length
    charset stream hs maxBadReads.toNat 0
  simpa using hiff

/-- C1 counterexample: with length 1, maxBadReads 1 and charset "abc", a
stream whose first read is wholly rejected and whose second read supplies an
accepted byte makes the output reach the target length during the second
(= maxBadReads+1) read, yet the call fails with "too many bad reads" because
that completing read is itself counted against the budget. -/
theorem c1_counterexample :
    (randString 1 1 [97, 98, 99] streamRejThenHit).1 = ([], some GenErr.tooManyBadReads)
      ∧ outAfter (maxByteOf 3) 3 1 [97, 98, 99] streamRejThenHit 2 = [97] := by
  decide

theorem streamAllRejected_total : ∀ i, streamAllRejected i ≠ ReadResult.fail := by
  intro i
  show ReadResult.ok [255] ≠ ReadResult.fail
  decide

theorem c1_witness :
    (randString 1 1 [97, 98, 99] streamAllRejected).1.2 = some GenErr.tooManyBadReads :=
  (c1_bad_read_budget 1 1 [97, 98, 99] streamAllRejected (by decide) (by decide) (by decide)
    streamAllRejected_total).mpr (by decide)

/-- C9 (amended): for every length, alphabet, maxBadReads (also negative ones)
and entropy stream the sampler performs at most max(maxBadReads, 0) + 1 buffer
reads; the function is total by construction, so it always returns either a
string or an error. -/
theorem c9_reads_bounded (length maxBadReads : Int) (charset : List Nat)
    (stream : Nat → ReadResult) :
    (randString length maxBadReads charset stream).2 ≤ maxBadReads.toNat + 1 := by
  rw [randString]
  by_cases h0 : length = 0
  · rw [if_pos h0]
    simp
  · rw [if_neg h0]
    by_cases hsz : charset.length < 2 ∨ 256 < charset.length
    · rw [if_pos hsz]
      simp
    · rw [if_neg hsz]
      have := randStringLoop_reads_le length (maxByteOf charset.length) charset.length charset
        stream maxBadReads.toNat 0 []
      omega

/-- C9 counterexample: with a negative budget maxBadReads = -5 the sampler
still performs one buffer read, exceeding the claimed bound maxBadReads + 1 =
-4; the bound of the claim fails for negative budgets. -/
theorem c9_counterexample :
    ((randString 1 (-5) [97, 98] streamSingleZero).2 : Int) = 1
      ∧ ¬ ((1 : Int) ≤ -5 + 1) := by
  decide

/-- C10: every error return of randString and of Generate carries the empty
string: no partially generated output is ever returned alongside an error. -/
theorem c10_error_empty_string (length maxBadReads : Int) (charset : List Nat)
    (opts : Options) (stream stream2 : Nat → ReadResult) (e e2 : GenErr) :
    ((randString length maxBadReads charset stream).1.2 = some e →
      (randString length maxBadReads charset stream).1.1 = [])
    ∧ ((Generate opts stream2).1.2 = some e2 → (Generate opts stream2).1.1 = []) := by
  constructor
  · exact randString_error_empty length maxBadReads charset stream e
  · intro h
    rw [Generate] at h ⊢
    by_cases hc : (getCharset opts).1.length = 0
    · rw [if_pos hc]
    · rw [if_neg hc] at h ⊢
      exact randString_error_empty _ _ _ _ e2 h

theorem c10_witness :
    (Generate (Options.mk 16 false false false [97] 150) streamFail).1.1 = ([] : List Nat) :=
  (c10_error_empty_string 1 1 [] (Options.mk 16 false false false [97] 150) streamFail
    streamFail GenErr.readFail GenErr.charsetSize).2 (by decide)


/-- C2: for every alphabet size n in [2, 256] the sampler uses the acceptance
bound 255 - 256 % n, accepts a byte exactly when it is at most that bound
(appending charset[b % n]) and discards it otherwise, and for every index
j < n exactly 256 / n of the 256 byte values are accepted and map to j. -/
theorem c2_rejection_sampling_uniform (n j : Nat) (length : Int) (charset : List Nat)
    (output bytes : List Nat) (b : Nat)
    (h2 : 2 ≤ n) (h256 : n ≤ 256) (hj : j < n) :
    maxByteOf n = 255 - 256 % n
    ∧ ((output.length : Int) < length → b ≤ maxByteOf n →
        processBuffer (maxByteOf n) n length charset output (b :: bytes)
          = processBuffer (maxByteOf n) n length charset
              (output ++ [charset.getD (b % n) 0]) bytes)
    ∧ ((output.length : Int) < length → ¬ b ≤ maxByteOf n →
        processBuffer (maxByteOf n) n length charset output (b :: bytes)
          = processBuffer (maxByteOf n) n length charset output bytes)
    ∧ ((Finset.range 256).filter (fun v => v ≤ maxByteOf n ∧ v % n = j)).card = 256 / n := by
  refine ⟨rfl, ?_, ?_, count_accepted n j h2 h256 hj⟩
  · intro hlt hb
    simp [processBuffer, hlt, hb]
  · intro hlt hb
    simp [processBuffer, hlt, hb]

theorem c2_witness :
    2 ≤ 10 ∧ 10 ≤ 256 ∧ 3 < 10
      ∧ ((Finset.range 256).filter (fun v => v ≤ maxByteOf 10 ∧ v % 10 = 3)).card = 256 / 10 :=
  ⟨by decide, by decide, by decide,
    (c2_rejection_sampling_uniform 10 3 1 Numeric [] [] 7
      (by decide) (by decide) (by decide)).2.2.2⟩

/-- C3 (amended): it is the sampler, not Generate, that maps length 0 to an
immediate empty result with no error and no entropy consumed; Generate
substitutes the default length 16 for a requested length of 0 and behaves as
if 16 had been requested. -/
theorem c3_zero_length (maxBadReads : Int) (charset : List Nat)
    (stream : Nat → ReadResult) (opts : Options) (stream2 : Nat → ReadResult)
    (h0 : opts.Length = 0) :
    randString 0 maxBadReads charset stream = (([], none), 0)
    ∧ Generate opts stream2
        = Generate (Options.mk DefaultLength opts.ExcludeNumeric opts.ExcludeLowercase
            opts.ExcludeUppercase opts.CustomCharset opts.MaxBadReads) stream2 := by
  constructor
  · rfl
  · obtain ⟨L, eN, eL, eU, cc, mbr⟩ := opts
    simp only at h0
    subst h0
    simp [Generate, getCharset, effectiveLength, effectiveMaxBadReads, DefaultLength]

/-- C3 counterexample: Generate called with Length 0 and an all-zero entropy
stream returns a sixteen-character string (sixteen copies of the byte 48) and
consumes one entropy read, not the empty string with no entropy. -/
theorem c3_counterexample :
    Generate (Options.mk 0 false false false [] 150) streamZeros
      = ((List.replicate 16 48, none), 1)
    ∧ (List.replicate 16 48 : List Nat) ≠ [] := by
  decide

theorem c3_witness :
    randString 0 150 [97, 98] streamFail = (([], none), 0)
    ∧ Generate (Options.mk 0 false false false [] 150) streamZeros
        = Generate (Options.mk DefaultLength false false false [] 150) streamZeros :=
  c3_zero_length 150 [97, 98] streamFail (Options.mk 0 false false false [] 150) streamZeros rfl

/-- C4: whenever Generate succeeds, the returned string has exactly the
effective length: the requested length when positive, otherwise the default
16. -/
theorem c4_success_length (opts : Options) (stream : Nat → ReadResult)
    (out : List Nat) (reads : Nat)
    (h : Generate opts stream = ((out, none), reads)) :
    (out.length : Int) = effectiveLength opts := by
  rw [Generate] at h
  by_cases hc : (getCharset opts).1.length = 0
  · rw [if_pos hc] at h
    simp at h
  · rw [if_neg hc] at h
    have hpos := effectiveLength_pos opts
    have hne : effectiveLength opts ≠ 0 := by omega
    rw [randString, if_neg hne] at h
    by_cases hsz : (getCharset opts).1.length < 2 ∨ 256 < (getCharset opts).1.length
    · rw [if_pos hsz] at h
      simp at h
    · rw [if_neg hsz] at h
      exact randStringLoop_none_length (effectiveLength opts)
        (maxByteOf (getCharset opts).1.length) (getCharset opts).1.length (getCharset opts).1
        stream (effectiveMaxBadReads opts).toNat 0 [] out reads (by simpa using hpos.le) h

theorem c4_witness :
    ((List.replicate 16 48 : List Nat).length : Int) = effectiveLength NewOpts :=
  c4_success_length NewOpts streamZeros (List.replicate 16 48) 1 (by decide)

/-- C5 (amended): for every length at least 1 the sampler returns the
"charset size 2-256" error exactly when the alphabet size lies outside
[2, 256], and in that case it performs no entropy reads; sizes 2 and 256 never
produce this error.  (At length 0 the sampler returns successfully before the
size check, so the equivalence needs length ≥ 1.) -/
theorem c5_charset_size_error (length maxBadReads : Int) (charset : List Nat)
    (stream : Nat → ReadResult) (h1 : 1 ≤ length) :
    (((randString length maxBadReads charset stream).1.2 = some GenErr.charsetSize)
      ↔ (charset.length < 2 ∨ 256 < charset.length))
    ∧ ((charset.length < 2 ∨ 256 < charset.length) →
        randString length maxBadReads charset stream = (([], some GenErr.charsetSize), 0)) := by
  have hne : length ≠ 0 := by omega
  constructor
  · constructor
    · intro herr
      by_contra hsz
      rw [randString, if_neg hne, if_neg hsz] at herr
      rcases hres : randStringLoop length (maxByteOf charset.length) charset.length charset
          stream maxBadReads.toNat 0 [] with ⟨⟨out, oe⟩, reads⟩
      rw [hres] at herr
      simp at herr
      subst herr
      obtain ⟨-, hor⟩ := randStringLoop_error length (maxByteOf charset.length) charset.length
        charset stream maxBadReads.toNat 0 [] out GenErr.charsetSize reads hres
      rcases hor with hx | hx <;> exact absurd hx (by decide)
    · intro hsz
      rw [randString, if_neg hne, if_pos hsz]
  · intro hsz
    rw [randString, if_neg hne, if_pos hsz]

/-- C5 counterexample: at length 0 the sampler returns success with no error
even for the empty alphabet, whose size 0 lies outside [2, 256] — the claimed
equivalence fails for length 0. -/
theorem c5_counterexample :
    (randString 0 150 [] streamFail).1.2 = none ∧ ([] : List Nat).length < 2 := by
  decide

theorem c5_witness :
    (1 : Int) ≤ 5 ∧ randString 5 150 [] streamFail = (([], some GenErr.charsetSize), 0) :=
  ⟨by decide, (c5_charset_size_error 5 150 [] streamFail (by decide)).2 (by decide)⟩


/-- C6: with no custom alphabet the resolver concatenates, in the fixed order
numeric, lowercase, uppercase, exactly the subsets whose exclusion flag is
false; when all three flags are true it instead returns the full alphanumeric
set, which as a set equals the union of digits, lowercase and uppercase. -/
theorem c6_flag_resolution (opts : Options) (h : opts.CustomCharset = []) :
    (¬ (opts.ExcludeNumeric = true ∧ opts.ExcludeLowercase = true
          ∧ opts.ExcludeUppercase = true) →
      (getCharset opts).1
        = (if opts.ExcludeNumeric then [] else Numeric)
            ++ (if opts.ExcludeLowercase then [] else Lowercase)
            ++ (if opts.ExcludeUppercase then [] else Uppercase))
    ∧ ((opts.ExcludeNumeric = true ∧ opts.ExcludeLowercase = true
          ∧ opts.ExcludeUppercase = true) →
        (getCharset opts).1 = Alphanumeric
        ∧ ∀ c : Nat, c ∈ (getCharset opts).1
            ↔ (c ∈ Numeric ∨ c ∈ Lowercase ∨ c ∈ Uppercase)) := by
  obtain ⟨L, eN, eL, eU, cc, mbr⟩ := opts
  simp only at h
  subst h
  cases eN <;> cases eL <;> cases eU <;> simp [getCharset] <;>
    intro c <;> simp [Alphanumeric, List.mem_append] <;> tauto

theorem c6_witness :
    (getCharset (Options.mk 16 true true true [] 150)).1 = Alphanumeric :=
  ((c6_flag_resolution (Options.mk 16 true true true [] 150) rfl).2 ⟨rfl, rfl, rfl⟩).1

/-- C7: a non-empty custom alphabet is returned verbatim by the resolver with
the exclusion flags ignored; URI-unsafe characters in it only set the warning
flag, and Generate proceeds to the sampler exactly as for any other alphabet,
producing neither a "no valid chars" nor (for sizes in [2, 256]) a "charset
size" error. -/
theorem c7_custom_charset_verbatim (opts : Options) (stream : Nat → ReadResult)
    (h : opts.CustomCharset ≠ []) :
    (getCharset opts).1 = opts.CustomCharset
    ∧ (getCharset opts).2 = !isURISafe opts.CustomCharset
    ∧ Generate opts stream
        = randString (effectiveLength opts) (effectiveMaxBadReads opts)
            opts.CustomCharset stream
    ∧ (2 ≤ opts.CustomCharset.length → opts.CustomCharset.length ≤ 256 →
        (Generate opts stream).1.2 ≠ some GenErr.noValidChars
        ∧ (Generate opts stream).1.2 ≠ some GenErr.charsetSize) := by
  have hgc : getCharset opts = (opts.CustomCharset, !isURISafe opts.CustomCharset) := by
    rw [getCharset, if_pos h]
  have hlen0 : ¬ ((getCharset opts).1.length = 0) := by
    rw [hgc]
    simpa using fun hh => h (List.length_eq_zero.mp hh)
  refine ⟨by rw [hgc], by rw [hgc], ?_, ?_⟩
  · rw [Generate, if_neg hlen0, hgc]
  · intro h2 h256
    exact generate_no_config_error opts stream (by rw [hgc]; exact h2) (by rw [hgc]; exact h256)

theorem c7_witness :
    (getCharset (Options.mk 5 false false false [35, 36] 150)).1 = [35, 36]
    ∧ isURISafe [35, 36] = false
    ∧ (Generate (Options.mk 5 false false false [35, 36] 150) streamZeros).1.2
        ≠ some GenErr.noValidChars :=
  ⟨(c7_custom_charset_verbatim (Options.mk 5 false false false [35, 36] 150) streamZeros
      (by decide)).1,
   by decide,
   ((c7_custom_charset_verbatim (Options.mk 5 false false false [35, 36] 150) streamZeros
      (by decide)).2.2.2 (by decide) (by decide)).1⟩

/-- C8: through the flag-exclusion path (no custom alphabet) the resolved
alphabet always has size in [2, 256], so neither the "no valid chars" branch
of Generate nor the "charset size 2-256" branch of the sampler is reachable
that way. -/
theorem c8_flag_path_safe (opts : Options) (stream : Nat → ReadResult)
    (h : opts.CustomCharset = []) :
    (2 ≤ (getCharset opts).1.length ∧ (getCharset opts).1.length ≤ 256)
    ∧ (Generate opts stream).1.2 ≠ some GenErr.noValidChars
    ∧ (Generate opts stream).1.2 ≠ some GenErr.charsetSize := by
  have hb : 2 ≤ (getCharset opts).1.length ∧ (getCharset opts).1.length ≤ 256 := by
    obtain ⟨L, eN, eL, eU, cc, mbr⟩ := opts
    simp only at h
    subst h
    cases eN <;> cases eL <;> cases eU <;> simp [getCharset] <;> decide
  exact ⟨hb, generate_no_config_error opts stream hb.1 hb.2⟩

theorem c8_witness :
    (2 ≤ (getCharset (Options.mk 16 true true false [] 150)).1.length
      ∧ (getCharset (Options.mk 16 true true false [] 150)).1.length ≤ 256)
    ∧ (Generate (Options.mk 16 true true false [] 150) streamFail).1.2
        ≠ some GenErr.noValidChars
    ∧ (Generate (Options.mk 16 true true false [] 150) streamFail).1.2
        ≠ some GenErr.charsetSize :=
  c8_flag_path_safe (Options.mk 16 true true false [] 150) streamFail rfl

end Uriuniq
